import Mathlib

/-!
Shallow embedding of the Ablavema launcher core (`src/gui.rs` together with
`src/main.rs`, and the interfaces of the modules they use): the package data
model, the per-package lifecycle state machine, the availability prober, the
sort comparator and the message-driven `Gui::update` dispatcher.  External
side effects (network requests, message boxes, persistence, the installed
registry's filesystem operations) are modelled as an explicit effect trace,
and `panic!`/`unwrap` failures as `Option.none`.
-/

/-- The release channel of a package (the `Build` enum of the `package`
module; its variants and their payloads are visible from every match in
`gui.rs`): `Daily` and `Branched` carry a sub-identifier naming the build
line. -/
inductive Build
  | daily (subtype : String)
  | branched (name : String)
  | stable
  | lts
  | archived
deriving DecidableEq, Repr

/-- The `New` / `Update` / `Old` status tag of a package. -/
inductive PackageStatus
  | new
  | update
  | old
deriving DecidableEq, Repr

/-- The lifecycle state of a package.  The Rust variants additionally carry
iced button-widget state, which is pure presentation and carries no
information; download and extraction progress (an `f32` percentage) is
modelled as a rational number. -/
inductive PackageState
  | fetched
  | downloading (progress : ℚ)
  | extracting (progress : ℚ)
  | installed
  | errored
deriving DecidableEq, Repr

/-- One downloadable or installed build.  The build/release date is modelled
as a totally ordered timestamp (`Nat`). -/
structure Package where
  name : String
  version : String
  date : Nat
  build : Build
  url : String
  status : PackageStatus
  state : PackageState
deriving DecidableEq, Repr

/-- Modelled from the spec: `Package`'s `PartialEq` lives in the missing
`package.rs`; per the spec, two packages are the same logical package iff
the name+build+version+date tuple matches exactly.  This is the `==` used
by every lookup, dedup and removal in `gui.rs`. -/
def Package.peq (a b : Package) : Bool :=
  a.name == b.name && a.version == b.version && a.date == b.date && a.build == b.build

/-- The view filters (`Filters` struct in `gui.rs`). -/
structure Filters where
  updates : Bool
  installed : Bool
  all : Bool
  daily : Bool
  branched : Bool
  lts : Bool
  stable : Bool
  archived : Bool
deriving DecidableEq, Repr

/-- `Filters::default` in `gui.rs`: the update and installed filters start
off, every channel filter starts on. -/
def Filters.default : Filters :=
  { updates := false
    installed := false
    all := true
    daily := true
    branched := true
    lts := true
    stable := true
    archived := true }

/-- `Filters::refresh_all` in `gui.rs`: the aggregate flag is on exactly when
every channel filter is on. -/
def Filters.refresh_all (f : Filters) : Filters :=
  if f.daily && f.branched && f.stable && f.lts && f.archived then
    { f with all := true }
  else
    { f with all := false }

/-- The sorting criterion (`SortBy` in `gui.rs`). -/
inductive SortBy
  | nameAscending
  | nameDescending
  | dateAscending
  | dateDescending
  | versionAscending
  | versionDescending
deriving DecidableEq, Repr

/-- Split the longest leading run of decimal digits off a character list. -/
def spanDigits : List Char → List Char × List Char
  | [] => ([], [])
  | c :: cs =>
    if c.isDigit then
      let r := spanDigits cs
      (c :: r.1, r.2)
    else
      ([], c :: cs)

/-- Numeric value of a run of decimal digits. -/
def digitsToNat (ds : List Char) : Nat :=
  ds.foldl (fun n c => 10 * n + (c.toNat - 48)) 0

/-- Modelled from the spec: the natural-order string comparator (the external
`natord::compare_ignore_case`, whose source is not part of this repository).
Per the spec it is a "natural-order (numeric-aware) collation": numeric runs
are compared as integers, not lexicographically, and letters compare ignoring
case.  Fuelled recursion: every step consumes at least one character of the
first list, so that list's length is sufficient fuel. -/
def natCompareAux : Nat → List Char → List Char → Ordering
  | _, [], [] => .eq
  | _, [], _ :: _ => .lt
  | _, _ :: _, [] => .gt
  | 0, _ :: _, _ :: _ => .eq
  | fuel + 1, a :: as, b :: bs =>
    if a.isDigit && b.isDigit then
      let ra := spanDigits (a :: as)
      let rb := spanDigits (b :: bs)
      match compare (digitsToNat ra.1) (digitsToNat rb.1) with
      | .eq => natCompareAux fuel ra.2 rb.2
      | o => o
    else
      match compare a.toLower b.toLower with
      | .eq => natCompareAux fuel as bs
      | o => o

/-- Natural-order, case-ignoring comparison of two strings. -/
def natCompare (a b : String) : Ordering :=
  natCompareAux a.toList.length a.toList b.toList

/-- `SortBy::get_ordering` in `gui.rs`: name and date sort with the standard
order, version sort with the natural-order comparator; descending variants
reverse the ordering. -/
def SortBy.get_ordering : SortBy → Package → Package → Ordering
  | .nameAscending, a, b => compare a.name b.name
  | .nameDescending, a, b => (compare a.name b.name).swap
  | .dateAscending, a, b => compare a.date b.date
  | .dateDescending, a, b => (compare a.date b.date).swap
  | .versionAscending, a, b => natCompare a.version b.version
  | .versionDescending, a, b => (natCompare a.version b.version).swap

/-- The UI tab (`Tab` in `gui.rs`). -/
inductive Tab
  | packages
  | settings
  | about
deriving DecidableEq, Repr

/-- The enable/disable radio choice (`Choice` in `gui.rs`). -/
inductive Choice
  | enable
  | disable
deriving DecidableEq, Repr

/-- `Choice` as the boolean the settings handlers write. -/
def Choice.toBool : Choice → Bool
  | .enable => true
  | .disable => false

/-- The fields of the global `SETTINGS` singleton that `gui.rs` reads and
writes (the struct itself lives in the missing `settings.rs`; each field is
named exactly as accessed there).  The modifier key and theme are external
enums whose variants never matter here; they are modelled as opaque `Nat`
tokens. -/
structure Settings where
  default_package : Option Package
  keep_only_latest_daily : Bool
  keep_only_latest_branched : Bool
  keep_only_latest_stable : Bool
  keep_only_latest_lts : Bool
  update_daily : Bool
  update_branched : Bool
  update_stable : Bool
  update_lts : Bool
  bypass_launcher : Bool
  use_latest_as_default : Bool
  check_updates_at_launch : Bool
  minutes_between_updates : Int
  modifier_key : Nat
  filters : Filters
  sort_by : SortBy
  theme : Nat
deriving DecidableEq, Repr

/-- Install-pipeline progress events (`Progress` in `gui/install.rs`, matched
exhaustively in `Package::update`). -/
inductive Progress
  | started
  | downloadProgress (p : ℚ)
  | finishedDownloading
  | extractionProgress (p : ℚ)
  | finishedExtracting
  | finishedInstalling
  | errored
deriving DecidableEq, Repr

/-- Per-package messages (`PackageMessage` in `gui.rs`). -/
inductive PackageMessage
  | install
  | installationProgress (p : Progress)
  | remove
  | openBlender
  | openBlenderWithFile
  | setDefault
  | unsetDefault
deriving DecidableEq, Repr

/-- The application messages (`Message` in `gui.rs`).  Channel collections
(`Daily`, `Branched`, ...) are lists of packages; the
`CheckAvailability` payload is the `(available, for_install, package)`
tuple; slider values are rationals (`f64` in the source). -/
inductive Message
  | packageMessage (index : Nat) (m : PackageMessage)
  | tryToInstall (p : Package)
  | checkAvailability (available : Bool) (for_install : Bool) (p : Package)
  | installPackage (p : Package)
  | packageInstalled (p : Package)
  | packageRemoved (p : Package)
  | openBlender (p : Package)
  | openBlenderWithFile (p : Package)
  | checkForUpdates
  | updatesChecked (changed : Bool) (daily branched stable lts : List Package)
  | fetchAll
  | allFetched (changed : Bool) (daily branched stable lts archived : List Package)
  | fetchDaily
  | dailyFetched (changed : Bool) (daily : List Package)
  | fetchBranched
  | branchedFetched (changed : Bool) (branched : List Package)
  | fetchStable
  | stableFetched (changed : Bool) (stable : List Package)
  | fetchLts
  | ltsFetched (changed : Bool) (lts : List Package)
  | fetchArchived
  | archivedFetched (changed : Bool) (archived : List Package)
  | filterUpdatesChanged (change : Bool)
  | filterInstalledChanged (change : Bool)
  | filterAllChanged (change : Bool)
  | filterDailyChanged (change : Bool)
  | filterBranchedChanged (change : Bool)
  | filterStableChanged (change : Bool)
  | filterLtsChanged (change : Bool)
  | filterArchivedChanged (change : Bool)
  | sortingChanged (s : SortBy)
  | tabChanged (t : Tab)
  | bypassLauncher (c : Choice)
  | modifierKey (k : Nat)
  | useLatestAsDefault (c : Choice)
  | checkUpdatesAtLaunch (c : Choice)
  | minutesBetweenUpdatesChanged (m : ℚ)
  | saveMinutesBetweenUpdates (m : ℚ)
  | updateDaily (c : Choice)
  | updateBranched (c : Choice)
  | updateStable (c : Choice)
  | updateLts (c : Choice)
  | keepOnlyLatestDaily (c : Choice)
  | keepOnlyLatestBranched (c : Choice)
  | keepOnlyLatestStable (c : Choice)
  | keepOnlyLatestLts (c : Choice)
  | themeChanged (t : Nat)
deriving DecidableEq, Repr

/-- The side effects `Gui::update` and `Package::update` perform, in source
order.  `performMsg` models an iced `Command::perform` that will deliver the
given message; the `performCheck...` effects model the asynchronous fetch
commands, carrying the store contents moved into them; the `save...`,
`sync`, `installedFetch`, `installedUpdateDefault`, `removeOldPackages` and
`addNewPackages` effects are the calls into the missing `releases.rs` /
`settings.rs`, modelled at their interface; `msgBoxCantInstall name reason`
and `msgBoxNoLongerAvailable name` are the two message boxes with their
formatted parameters. -/
inductive Effect
  | performMsg (m : Message)
  | performCheckAvailability (for_install : Bool) (p : Package)
  | performCheckForUpdates (daily branched stable lts : List Package)
  | performCheckAll (daily branched stable lts archived : List Package)
  | performCheckDaily (packages : List Package)
  | performCheckBranched (packages : List Package)
  | performCheckStable (packages : List Package)
  | performCheckLts (packages : List Package)
  | performCheckArchived (packages : List Package)
  | msgBoxCantInstall (name reason : String)
  | msgBoxNoLongerAvailable (name : String)
  | saveSettings
  | saveDaily
  | saveBranched
  | saveStable
  | saveLts
  | saveArchived
  | installedFetch
  | installedUpdateDefault
  | removeOldPackages
  | sync
  | addNewPackages (changed : Bool) (daily branched stable lts : List Package)
  | packageRemoveFs (p : Package)
  | openBlenderProc (name : String) (file : Option String)
  | exitProcess
deriving DecidableEq, Repr

/-- The outcome of the HTTP GET issued by `Gui::check_availability`: either
a response arrived (carrying whether its status is a 4xx client error), or
the connection itself failed. -/
inductive ProbeOutcome
  | response (clientError : Bool)
  | connError
deriving DecidableEq, Repr

/-- `Gui::check_availability` in `gui.rs`: given the outcome of
`reqwest::get(&package.url)`, return the `(available, for_install, package)`
tuple — available is false exactly on a client-error response — or panic
(`none`) when the connection failed. -/
def Gui.check_availability (for_install : Bool) (package : Package) :
    ProbeOutcome → Option (Bool × Bool × Package)
  | .response clientError =>
    if clientError then
      some (false, for_install, package)
    else
      some (true, for_install, package)
  | .connError => none

/-- `Package::update` in `gui.rs`.  The Rust method mutates the package and
the global `SETTINGS` and returns an iced command; here it returns the new
package, the new settings and the effect trace.  `PackageMessage::Remove`
calls `self.remove()` (in the missing `package.rs`, it deletes the on-disk
installation), modelled as the `packageRemoveFs` effect. -/
def Package.update (p : Package) (s : Settings) :
    PackageMessage → Package × Settings × List Effect
  | .install => (p, s, [.performMsg (.tryToInstall p)])
  | .installationProgress pr =>
    match pr with
    | .started => ({ p with state := .downloading 0 }, s, [])
    | .downloadProgress q => ({ p with state := .downloading q }, s, [])
    | .finishedDownloading => (p, s, [])
    | .extractionProgress q => ({ p with state := .extracting q }, s, [])
    | .finishedExtracting => (p, s, [])
    | .finishedInstalling =>
      let p' := { p with state := .installed }
      (p', s, [.performMsg (.packageInstalled p')])
    | .errored => ({ p with state := .errored }, s, [])
  | .remove => (p, s, [.packageRemoveFs p, .performMsg (.packageRemoved p)])
  | .openBlender => (p, s, [.performMsg (.openBlender p)])
  | .openBlenderWithFile => (p, s, [.performMsg (.openBlenderWithFile p)])
  | .setDefault => (p, { s with default_package := some p }, [.saveSettings])
  | .unsetDefault => (p, { s with default_package := none }, [.saveSettings])

/-- `Iterator::position` / `iter().position(...)`: index of the first element
satisfying the predicate. -/
def position? (pr : α → Bool) : List α → Option Nat
  | [] => none
  | a :: as => if pr a then some 0 else (position? pr as).map (· + 1)

/-- `iter().enumerate().find(...)`: the first index-element pair whose
element satisfies the predicate. -/
def find_enum? (pr : α → Bool) : List α → Option (Nat × α)
  | [] => none
  | a :: as =>
    if pr a then some (0, a) else (find_enum? pr as).map (fun e => (e.1 + 1, e.2))

/-- The channel stores and the installed registry owned by `Releases` (the
struct lives in the missing `releases.rs`; `gui.rs` accesses exactly these
six collections).  Each store is an ordered list of packages. -/
structure Releases where
  daily : List Package
  branched : List Package
  stable : List Package
  lts : List Package
  archived : List Package
  installed : List Package
deriving DecidableEq, Repr

/-- The concatenation of the five channel stores in the order the
`iter::empty().chain(...)` chains of `gui.rs` visit them. -/
def Releases.chain (r : Releases) : List Package :=
  r.daily ++ r.branched ++ r.stable ++ r.lts ++ r.archived

/-- Write a full chained list (of unchanged length) back into the five
channel stores, splitting at the original store lengths — the effect of
mutating one element through the chained `iter_mut()` of
`Message::PackageMessage`. -/
def Releases.setChain (r : Releases) (l : List Package) : Releases :=
  let l1 := l.drop r.daily.length
  let l2 := l1.drop r.branched.length
  let l3 := l2.drop r.stable.length
  { r with
    daily := l.take r.daily.length
    branched := l1.take r.branched.length
    stable := l2.take r.stable.length
    lts := l3.take r.lts.length
    archived := l3.drop r.lts.length }

/-- The five release channels, as used to say which store a build belongs
to. -/
inductive Channel
  | daily
  | branched
  | stable
  | lts
  | archived
deriving DecidableEq, Repr

/-- The channel of a build identity. -/
def Build.channel : Build → Channel
  | .daily _ => .daily
  | .branched _ => .branched
  | .stable => .stable
  | .lts => .lts
  | .archived => .archived

/-- The channel store a build belongs to, following the five-way match of
the `Message::CheckAvailability` arm. -/
def Releases.storeOf (r : Releases) : Build → List Package
  | .daily _ => r.daily
  | .branched _ => r.branched
  | .stable => r.stable
  | .lts => r.lts
  | .archived => r.archived

/-- The persistence effect of saving a build's channel store. -/
def Build.saveEffect : Build → Effect
  | .daily _ => .saveDaily
  | .branched _ => .saveBranched
  | .stable => .saveStable
  | .lts => .saveLts
  | .archived => .saveArchived

/-- The sidebar controls state used by `Gui::update` (`Controls` in `gui.rs`,
widget-only fields dropped). -/
structure Controls where
  filters : Filters
  sort_by : SortBy
deriving DecidableEq, Repr

/-- The GUI-internal state used by `Gui::update` (`GuiState` in `gui.rs`,
widget-only fields dropped; the minute slider value is an `f64` in the
source). -/
structure GuiState where
  controls : Controls
  minute_value : ℚ
deriving DecidableEq, Repr

/-- The application state: the `Gui` struct of `gui.rs` plus the global
`SETTINGS` singleton it reads and writes (carried explicitly). -/
structure Gui where
  releases : Releases
  file_path : Option String
  installing : List (Package × Nat)
  state : GuiState
  tab : Tab
  theme : Nat
  settings : Settings
deriving DecidableEq, Repr

/-- Set the view filters: the filter handlers write the new filters both
into the controls and into `SETTINGS.filters`. -/
def Gui.setFilters (g : Gui) (f : Filters) : Gui :=
  { g with
    state := { g.state with controls := { g.state.controls with filters := f } }
    settings := { g.settings with filters := f } }

/-- The policy-gate message computed at the top of the
`Message::TryToInstall` arm: the channel-specific refusal reason, or the
empty string when installation may proceed.  Archived builds always yield
the empty string. -/
def Gui.try_to_install_reason (s : Settings) (installed : List Package)
    (p : Package) : String :=
  match p.build with
  | .daily _ =>
    if s.keep_only_latest_daily && !(p.status == .update) &&
        (installed.find? (fun q => q.build == p.build)).isSome then
      "daily package of its build type"
    else
      ""
  | .branched _ =>
    if s.keep_only_latest_branched && !(p.status == .update) &&
        (installed.find? (fun q => q.build == p.build)).isSome then
      "branched package of its build type"
    else
      ""
  | .stable =>
    if s.keep_only_latest_stable && !(p.status == .update) &&
        (installed.find? (fun q => q.build == p.build)).isSome then
      "stable package"
    else
      ""
  | .lts =>
    if s.keep_only_latest_lts && !(p.status == .update) &&
        (installed.find? (fun q => q.build == p.build)).isSome then
      "LTS package"
    else
      ""
  | .archived => ""

/-- `Gui::update` in `gui.rs`: one step of the message dispatcher.  Returns
the new state and the effect trace, or `none` where the source panics
(`unwrap` / `unreachable!`).  Asynchronous commands appear as effects; the
ownership-taking fetch arms empty the stores they move out, exactly as
`mem::take` does. -/
def Gui.update (g : Gui) : Message → Option (Gui × List Effect)
  | .packageMessage index pm =>
    match (g.releases.chain).get? index with
    | none => none
    | some p =>
      let r := p.update g.settings pm
      some
        ({ g with
            releases := g.releases.setChain ((g.releases.chain).set index r.1)
            settings := r.2.1 },
          r.2.2)
  | .tryToInstall p =>
    let reason := Gui.try_to_install_reason g.settings g.releases.installed p
    if reason == "" then
      some (g, [.performCheckAvailability true p])
    else
      some (g, [.msgBoxCantInstall p.name reason])
  | .checkAvailability available for_install p =>
    if available then
      if for_install then
        some (g, [.performMsg (.installPackage p)])
      else
        some (g, [.sync])
    else
      match p.build with
      | .daily _ =>
        match position? (fun q => q.peq p) g.releases.daily with
        | none => none
        | some i =>
          some
            ({ g with releases := { g.releases with daily := g.releases.daily.eraseIdx i } },
              [Effect.saveDaily] ++
                (if for_install then [Effect.msgBoxNoLongerAvailable p.name] else []) ++
                [Effect.sync])
      | .branched _ =>
        match position? (fun q => q.peq p) g.releases.branched with
        | none => none
        | some i =>
          some
            ({ g with releases := { g.releases with branched := g.releases.branched.eraseIdx i } },
              [Effect.saveBranched] ++
                (if for_install then [Effect.msgBoxNoLongerAvailable p.name] else []) ++
                [Effect.sync])
      | .stable =>
        match position? (fun q => q.peq p) g.releases.stable with
        | none => none
        | some i =>
          some
            ({ g with releases := { g.releases with stable := g.releases.stable.eraseIdx i } },
              [Effect.saveStable] ++
                (if for_install then [Effect.msgBoxNoLongerAvailable p.name] else []) ++
                [Effect.sync])
      | .lts =>
        match position? (fun q => q.peq p) g.releases.lts with
        | none => none
        | some i =>
          some
            ({ g with releases := { g.releases with lts := g.releases.lts.eraseIdx i } },
              [Effect.saveLts] ++
                (if for_install then [Effect.msgBoxNoLongerAvailable p.name] else []) ++
                [Effect.sync])
      | .archived =>
        match position? (fun q => q.peq p) g.releases.archived with
        | none => none
        | some i =>
          some
            ({ g with releases := { g.releases with archived := g.releases.archived.eraseIdx i } },
              [Effect.saveArchived] ++
                (if for_install then [Effect.msgBoxNoLongerAvailable p.name] else []) ++
                [Effect.sync])
  | .installPackage p =>
    match find_enum? (fun q => q.peq p) g.releases.chain with
    | none => none
    | some e => some ({ g with installing := g.installing ++ [(e.2, e.1)] }, [])
  | .packageInstalled p =>
    match position? (fun e => e.1.peq p) g.installing with
    | none => none
    | some i =>
      some
        ({ g with installing := g.installing.eraseIdx i },
          [.installedFetch, .installedUpdateDefault, .removeOldPackages, .sync])
  | .packageRemoved p =>
    match g.settings.default_package with
    | some d =>
      if d.peq p then
        some
          ({ g with settings := { g.settings with default_package := none } },
            [.saveSettings, .performCheckAvailability false p])
      else
        some (g, [.performCheckAvailability false p])
    | none => some (g, [.performCheckAvailability false p])
  | .openBlender p => some (g, [.openBlenderProc p.name none, .exitProcess])
  | .openBlenderWithFile p =>
    match g.file_path with
    | none => none
    | some fp => some (g, [.openBlenderProc p.name (some fp), .exitProcess])
  | .checkForUpdates =>
    some
      ({ g with
          releases := { g.releases with daily := [], branched := [], stable := [], lts := [] } },
        [.performCheckForUpdates g.releases.daily g.releases.branched g.releases.stable
            g.releases.lts])
  | .updatesChecked changed daily branched stable lts =>
    some (g, [.addNewPackages changed daily branched stable lts])
  | .fetchAll =>
    some
      ({ g with
          releases :=
            { g.releases with
              daily := [], branched := [], stable := [], lts := [], archived := [] } },
        [.performCheckAll g.releases.daily g.releases.branched g.releases.stable g.releases.lts
            g.releases.archived])
  | .allFetched _ daily branched stable lts archived =>
    some
      ({ g with
          releases :=
            { g.releases with
              daily := daily, branched := branched, stable := stable, lts := lts,
              archived := archived } },
        [])
  | .fetchDaily =>
    some
      ({ g with releases := { g.releases with daily := [] } },
        [.performCheckDaily g.releases.daily])
  | .dailyFetched _ daily =>
    some ({ g with releases := { g.releases with daily := daily } }, [])
  | .fetchBranched =>
    some
      ({ g with releases := { g.releases with branched := [] } },
        [.performCheckBranched g.releases.branched])
  | .branchedFetched _ branched =>
    some ({ g with releases := { g.releases with branched := branched } }, [])
  | .fetchStable =>
    some
      ({ g with releases := { g.releases with stable := [] } },
        [.performCheckStable g.releases.stable])
  | .stableFetched _ stable =>
    some ({ g with releases := { g.releases with stable := stable } }, [])
  | .fetchLts =>
    some
      ({ g with releases := { g.releases with lts := [] } },
        [.performCheckLts g.releases.lts])
  | .ltsFetched _ lts =>
    some ({ g with releases := { g.releases with lts := lts } }, [])
  | .fetchArchived =>
    some
      ({ g with releases := { g.releases with archived := [] } },
        [.performCheckArchived g.releases.archived])
  | .archivedFetched _ archived =>
    some ({ g with releases := { g.releases with archived := archived } }, [])
  | .filterUpdatesChanged change =>
    let f := g.state.controls.filters
    let f' :=
      if change then { f with updates := true, installed := false }
      else { f with updates := false }
    some (g.setFilters f', [.saveSettings])
  | .filterInstalledChanged change =>
    let f := g.state.controls.filters
    let f' :=
      if change then { f with installed := true, updates := false }
      else { f with installed := false }
    some (g.setFilters f', [.saveSettings])
  | .filterAllChanged change =>
    let f := g.state.controls.filters
    let f' :=
      { f with
        all := change, daily := change, branched := change, stable := change, lts := change,
        archived := change }
    some (g.setFilters f', [.saveSettings])
  | .filterDailyChanged change =>
    let f' := Filters.refresh_all { g.state.controls.filters with daily := change }
    some (g.setFilters f', [.saveSettings])
  | .filterBranchedChanged change =>
    let f' := Filters.refresh_all { g.state.controls.filters with branched := change }
    some (g.setFilters f', [.saveSettings])
  | .filterStableChanged change =>
    let f' := Filters.refresh_all { g.state.controls.filters with stable := change }
    some (g.setFilters f', [.saveSettings])
  | .filterLtsChanged change =>
    let f' := Filters.refresh_all { g.state.controls.filters with lts := change }
    some (g.setFilters f', [.saveSettings])
  | .filterArchivedChanged change =>
    let f' := Filters.refresh_all { g.state.controls.filters with archived := change }
    some (g.setFilters f', [.saveSettings])
  | .sortingChanged sb =>
    some
      ({ g with
          state := { g.state with controls := { g.state.controls with sort_by := sb } }
          settings := { g.settings with sort_by := sb } },
        [.saveSettings])
  | .tabChanged t => some ({ g with tab := t }, [])
  | .bypassLauncher c =>
    some ({ g with settings := { g.settings with bypass_launcher := c.toBool } }, [.saveSettings])
  | .modifierKey k =>
    some ({ g with settings := { g.settings with modifier_key := k } }, [.saveSettings])
  | .useLatestAsDefault c =>
    some
      ({ g with settings := { g.settings with use_latest_as_default := c.toBool } },
        [.saveSettings])
  | .checkUpdatesAtLaunch c =>
    some
      ({ g with settings := { g.settings with check_updates_at_launch := c.toBool } },
        [.saveSettings])
  | .minutesBetweenUpdatesChanged m =>
    some ({ g with state := { g.state with minute_value := m } }, [])
  | .saveMinutesBetweenUpdates m =>
    some
      ({ g with settings := { g.settings with minutes_between_updates := ⌊m⌋ } },
        [.saveSettings])
  | .updateDaily c =>
    some
      ({ g with settings := { g.settings with update_daily := c.toBool } },
        [.saveSettings, .sync])
  | .updateBranched c =>
    some
      ({ g with settings := { g.settings with update_branched := c.toBool } },
        [.saveSettings, .sync])
  | .updateStable c =>
    some
      ({ g with settings := { g.settings with update_stable := c.toBool } },
        [.saveSettings, .sync])
  | .updateLts c =>
    some
      ({ g with settings := { g.settings with update_lts := c.toBool } },
        [.saveSettings, .sync])
  | .keepOnlyLatestDaily c =>
    some
      ({ g with settings := { g.settings with keep_only_latest_daily := c.toBool } },
        [.saveSettings])
  | .keepOnlyLatestBranched c =>
    some
      ({ g with settings := { g.settings with keep_only_latest_branched := c.toBool } },
        [.saveSettings])
  | .keepOnlyLatestStable c =>
    some
      ({ g with settings := { g.settings with keep_only_latest_stable := c.toBool } },
        [.saveSettings])
  | .keepOnlyLatestLts c =>
    some
      ({ g with settings := { g.settings with keep_only_latest_lts := c.toBool } },
        [.saveSettings])
  | .themeChanged t =>
    some
      ({ g with theme := t, settings := { g.settings with theme := t } },
        [.saveSettings])

/-- Run a sequence of messages through `Gui::update`, stopping with `none`
if any step panics. -/
def Gui.runMessages (g : Gui) : List Message → Option Gui
  | [] => some g
  | m :: ms =>
    match Gui.update g m with
    | none => none
    | some r => Gui.runMessages r.1 ms

theorem position?_eq_none_iff (pr : α → Bool) :
    ∀ l : List α, position? pr l = none ↔ ∀ a ∈ l, ¬ pr a = true
  | [] => by simp [position?]
  | a :: as => by
    by_cases h : pr a = true <;>
      simp [position?, h, position?_eq_none_iff pr as]

theorem find_enum?_eq_none_iff (pr : α → Bool) :
    ∀ l : List α, find_enum? pr l = none ↔ ∀ a ∈ l, ¬ pr a = true
  | [] => by simp [find_enum?]
  | a :: as => by
    by_cases h : pr a = true <;>
      simp [find_enum?, h, find_enum?_eq_none_iff pr as]

theorem countP_eraseIdx_of_position? (pr : α → Bool) :
    ∀ (l : List α) (i : Nat), position? pr l = some i →
      (l.eraseIdx i).countP pr + 1 = l.countP pr
  | [], i, h => by simp [position?] at h
  | a :: as, i, h => by
    by_cases ha : pr a = true
    · simp [position?, ha] at h
      subst h
      simp [List.eraseIdx, List.countP_cons, ha]
    · simp [position?, ha] at h
      obtain ⟨j, hj, rfl⟩ := h
      have := countP_eraseIdx_of_position? pr as j hj
      simp [List.eraseIdx, List.countP_cons, ha]
      omega

theorem position?_isSome_of_countP_one (pr : α → Bool) (l : List α)
    (h : l.countP pr = 1) : ∃ i, position? pr l = some i := by
  cases hp : position? pr l with
  | none =>
    have := (position?_eq_none_iff pr l).mp hp
    have : l.countP pr = 0 := List.countP_eq_zero.mpr (by simpa using this)
    omega
  | some i => exact ⟨i, rfl⟩

/-- A baseline settings value used by the concrete witness states: every
keep-only-latest flag off, every update channel on, no default package. -/
def sEx : Settings :=
  { default_package := none
    keep_only_latest_daily := false
    keep_only_latest_branched := false
    keep_only_latest_stable := false
    keep_only_latest_lts := false
    update_daily := true
    update_branched := true
    update_stable := true
    update_lts := true
    bypass_launcher := false
    use_latest_as_default := false
    check_updates_at_launch := false
    minutes_between_updates := 0
    modifier_key := 0
    filters := Filters.default
    sort_by := .versionDescending
    theme := 0 }

/-- A concrete stable package used by the witnesses. -/
def pEx : Package :=
  { name := "blender-2.90.0"
    version := "2.90.0"
    date := 100
    build := .stable
    url := "https://example.org/blender-2.90.0.tar.xz"
    status := .new
    state := .fetched }

/-- A concrete GUI state: `pEx` is in the stable store and an install of
`pEx` is already in flight (the installing list holds an entry for it). -/
def gEx : Gui :=
  { releases :=
      { daily := [], branched := [], stable := [pEx], lts := [], archived := [], installed := [] }
    file_path := none
    installing := [(pEx, 0)]
    state :=
      { controls := { filters := Filters.default, sort_by := .versionDescending }
        minute_value := 0 }
    tab := .packages
    theme := 0
    settings := sEx }

/-- Claim C3: for every package in any state, an install-pipeline progress
event updates the package's state exactly as specified: `Started` sets
`Downloading` with progress 0, `DownloadProgress p` sets `Downloading p`,
`FinishedDownloading` leaves the state unchanged, `ExtractionProgress p`
sets `Extracting p`, `FinishedExtracting` leaves the state unchanged,
`FinishedInstalling` sets `Installed`, and `Errored` sets `Errored`. -/
theorem package_progress_transitions (p : Package) (s : Settings) (q : ℚ) :
    (p.update s (.installationProgress .started)).1 = { p with state := .downloading 0 } ∧
    (p.update s (.installationProgress (.downloadProgress q))).1 =
      { p with state := .downloading q } ∧
    (p.update s (.installationProgress .finishedDownloading)).1 = p ∧
    (p.update s (.installationProgress (.extractionProgress q))).1 =
      { p with state := .extracting q } ∧
    (p.update s (.installationProgress .finishedExtracting)).1 = p ∧
    (p.update s (.installationProgress .finishedInstalling)).1 =
      { p with state := .installed } ∧
    (p.update s (.installationProgress .errored)).1 = { p with state := .errored } :=
  ⟨rfl, rfl, rfl, rfl, rfl, rfl, rfl⟩

/-- Claim C6: for every package and `for_install` flag, a hard connection
failure of the availability probe (no HTTP response) is fatal to the current
operation — the source panics, modelled as `none` — and in particular the
probe never reports `available = false` for it. -/
theorem check_availability_conn_error_fatal (for_install : Bool) (p : Package) :
    Gui.check_availability for_install p .connError = none ∧
    ∀ fi pk, Gui.check_availability for_install p .connError ≠ some (false, fi, pk) := by
  refine ⟨rfl, ?_⟩
  intro fi pk
  simp [Gui.check_availability]

/-- Claim C9: the comparator behind `SortBy::VersionAscending` and
`SortBy::VersionDescending` is natural-order — numeric runs compare as
integers — so for packages whose versions are `2.9` and `2.90` the
ascending comparator orders `2.9` strictly before `2.90`. -/
theorem version_sort_natural_order (a b : Package)
    (ha : a.version = "2.9") (hb : b.version = "2.90") :
    SortBy.get_ordering .versionAscending a b = .lt ∧
    SortBy.get_ordering .versionDescending a b = .gt := by
  constructor <;> simp [SortBy.get_ordering, ha, hb] <;> decide

/-- A package whose version string is `2.9`, for the sort witness. -/
def pV29 : Package := { pEx with name := "blender-2.9", version := "2.9" }

/-- A package whose version string is `2.90`, for the sort witness. -/
def pV290 : Package := { pEx with name := "blender-2.90", version := "2.90" }

/-- Witness for claim C9 at the concrete packages with versions `2.9` and
`2.90`. -/
theorem version_sort_natural_order_witness :
    SortBy.get_ordering .versionAscending pV29 pV290 = .lt ∧
    SortBy.get_ordering .versionDescending pV29 pV290 = .gt :=
  version_sort_natural_order pV29 pV290 rfl rfl

/-- Claim C1 counterexample: in the state `gEx` an install of `pEx` is
already in flight — the installing list holds an entry equal to `pEx` — yet
processing a second `InstallPackage pEx` is not rejected or coalesced: the
handler pushes again, and the installing list afterwards holds two entries
for `pEx`'s identity. -/
theorem one_pipeline_per_identity_counterexample :
    gEx.installing = [(pEx, 0)] ∧
    (Gui.update gEx (.installPackage pEx)).map
        (fun r => (r.1.installing.filter (fun e => e.1.peq pEx)).length) = some 2 :=
  ⟨rfl, rfl⟩

/-- Claim C1 (amended): the `InstallPackage` handler performs no duplicate
check against the installing list.  Whenever the chained channel stores
contain a package equal to P — first such element q, at chain index i — the
handler unconditionally appends (q, i) to the installing list, even when an
entry equal to P is already present, so duplicate requests yield duplicate
(identical) entries rather than being rejected. -/
theorem install_package_appends_unconditionally (g : Gui) (p q : Package) (i : Nat)
    (h : find_enum? (fun x => x.peq p) g.releases.chain = some (i, q)) :
    Gui.update g (.installPackage p) =
      some ({ g with installing := g.installing ++ [(q, i)] }, []) := by
  simp [Gui.update, h]

/-- Witness for the amended claim C1 at the concrete state `gEx`, whose
installing list already holds an entry for `pEx`. -/
theorem install_package_appends_unconditionally_witness :
    Gui.update gEx (.installPackage pEx) =
      some ({ gEx with installing := gEx.installing ++ [(pEx, 0)] }, []) :=
  install_package_appends_unconditionally gEx pEx pEx 0 (by decide)

/-- Claim C7: `InstallPackage P` panics (modelled as `none`) exactly when no
package equal to P is in any channel store, and `PackageInstalled P` panics
exactly when no entry equal to P is in the installing list; under the
precondition that P is present the error branch is unreachable and the
handler succeeds. -/
theorem invariant_violation_panics (g : Gui) (p : Package) :
    (Gui.update g (.installPackage p) = none ↔
      ∀ q ∈ g.releases.chain, ¬ q.peq p = true) ∧
    (Gui.update g (.packageInstalled p) = none ↔
      ∀ e ∈ g.installing, ¬ e.1.peq p = true) ∧
    ((∃ q ∈ g.releases.chain, q.peq p = true) →
      (Gui.update g (.installPackage p)).isSome = true) ∧
    ((∃ e ∈ g.installing, e.1.peq p = true) →
      (Gui.update g (.packageInstalled p)).isSome = true) := by
  have h1 : Gui.update g (.installPackage p) = none ↔
      find_enum? (fun q => q.peq p) g.releases.chain = none := by
    simp only [Gui.update]
    cases h : find_enum? (fun q => q.peq p) g.releases.chain <;> simp [h]
  have h2 : Gui.update g (.packageInstalled p) = none ↔
      position? (fun e => e.1.peq p) g.installing = none := by
    simp only [Gui.update]
    cases h : position? (fun e => e.1.peq p) g.installing <;> simp [h]
  refine ⟨h1.trans (find_enum?_eq_none_iff _ _), h2.trans (position?_eq_none_iff _ _), ?_, ?_⟩
  · intro hex
    rw [Option.isSome_iff_ne_none]
    intro hnone
    obtain ⟨q, hq, hpq⟩ := hex
    exact (h1.trans (find_enum?_eq_none_iff _ _)).mp hnone q hq hpq
  · intro hex
    rw [Option.isSome_iff_ne_none]
    intro hnone
    obtain ⟨e, he, hpe⟩ := hex
    exact (h2.trans (position?_eq_none_iff _ _)).mp hnone e he hpe

/-- Witness for claim C7 at the concrete state `gEx`: `pEx` is present both
in the stable store and in the installing list, so both handlers succeed. -/
theorem invariant_violation_panics_witness :
    (Gui.update gEx (.installPackage pEx)).isSome = true ∧
    (Gui.update gEx (.packageInstalled pEx)).isSome = true :=
  ⟨(invariant_violation_panics gEx pEx).2.2.1 ⟨pEx, by decide, by decide⟩,
   (invariant_violation_panics gEx pEx).2.2.2 ⟨(pEx, 0), by decide, by decide⟩⟩

/-- Claim C8: `PackageRemoved P` clears the settings default package (and
saves the settings) exactly when the current default equals P by package
equality, leaves the default unchanged otherwise, and in both cases issues
an availability probe of P with `for_install = false`. -/
theorem package_removed_default_handling (g : Gui) (p : Package) :
    (∀ d, g.settings.default_package = some d → d.peq p = true →
      Gui.update g (.packageRemoved p) =
        some ({ g with settings := { g.settings with default_package := none } },
          [.saveSettings, .performCheckAvailability false p])) ∧
    ((∀ d, g.settings.default_package = some d → d.peq p = false) →
      Gui.update g (.packageRemoved p) = some (g, [.performCheckAvailability false p])) := by
  constructor
  · intro d hd hdp
    simp [Gui.update, hd, hdp]
  · intro hne
    cases hd : g.settings.default_package with
    | none => simp [Gui.update, hd]
    | some d => simp [Gui.update, hd, hne d hd]

/-- The concrete state `gEx` with `pEx` set as the default package. -/
def gEx8 : Gui := { gEx with settings := { sEx with default_package := some pEx } }

/-- Witness for claim C8 at the concrete state `gEx8`, whose default package
equals the removed package, so the default is cleared, the settings saved,
and a non-install availability probe issued. -/
theorem package_removed_default_handling_witness :
    Gui.update gEx8 (.packageRemoved pEx) =
      some ({ gEx8 with settings := { gEx8.settings with default_package := none } },
        [.saveSettings, .performCheckAvailability false pEx]) :=
  (package_removed_default_handling gEx8 pEx).1 pEx rfl (by decide)

theorem gate_cond_iff (flag : Bool) (inst : List Package) (st : PackageStatus) (b : Build) :
    (flag && !(st == .update) && (inst.find? (fun q => q.build == b)).isSome) = true ↔
      (flag = true ∧ st ≠ .update ∧ ∃ q ∈ inst, q.build = b) := by
  simp [Bool.and_eq_true, List.find?_isSome, and_assoc]

theorem gate_string_iff (flag : Bool) (inst : List Package) (st : PackageStatus) (b : Build)
    (str : String) (hstr : ¬ str = "") :
    ((if flag && !(st == .update) && (inst.find? (fun q => q.build == b)).isSome
        then str else "") = "" ↔
      ¬(flag = true ∧ st ≠ .update ∧ ∃ q ∈ inst, q.build = b)) := by
  rw [← gate_cond_iff flag inst st b]
  by_cases hc : (flag && !(st == .update) && (inst.find? (fun q => q.build == b)).isSome) = true <;>
    simp [hc, hstr]

/-- Claim C2: the `TryToInstall` policy gate.  For each of the four
non-archived channels, if that channel's keep-only-latest setting is on,
the package's status is not `Update`, and some installed package shares its
build identity, the handler refuses with the channel-specific reason and
does not start the availability check; archived packages are never gated;
and whenever the computed reason is empty — which happens exactly when no
gate fires — the handler proceeds to the availability check. -/
theorem try_to_install_policy_gate (g : Gui) (p : Package) :
    ((∃ sub, p.build = .daily sub) → g.settings.keep_only_latest_daily = true →
        p.status ≠ .update → (∃ q ∈ g.releases.installed, q.build = p.build) →
      Gui.update g (.tryToInstall p) =
        some (g, [.msgBoxCantInstall p.name "daily package of its build type"])) ∧
    ((∃ nm, p.build = .branched nm) → g.settings.keep_only_latest_branched = true →
        p.status ≠ .update → (∃ q ∈ g.releases.installed, q.build = p.build) →
      Gui.update g (.tryToInstall p) =
        some (g, [.msgBoxCantInstall p.name "branched package of its build type"])) ∧
    (p.build = .stable → g.settings.keep_only_latest_stable = true →
        p.status ≠ .update → (∃ q ∈ g.releases.installed, q.build = p.build) →
      Gui.update g (.tryToInstall p) =
        some (g, [.msgBoxCantInstall p.name "stable package"])) ∧
    (p.build = .lts → g.settings.keep_only_latest_lts = true →
        p.status ≠ .update → (∃ q ∈ g.releases.installed, q.build = p.build) →
      Gui.update g (.tryToInstall p) =
        some (g, [.msgBoxCantInstall p.name "LTS package"])) ∧
    (p.build = .archived →
      Gui.update g (.tryToInstall p) = some (g, [.performCheckAvailability true p])) ∧
    (Gui.try_to_install_reason g.settings g.releases.installed p = "" →
      Gui.update g (.tryToInstall p) = some (g, [.performCheckAvailability true p])) ∧
    (Gui.try_to_install_reason g.settings g.releases.installed p = "" ↔
      ¬((match p.build with
          | .daily _ => g.settings.keep_only_latest_daily = true
          | .branched _ => g.settings.keep_only_latest_branched = true
          | .stable => g.settings.keep_only_latest_stable = true
          | .lts => g.settings.keep_only_latest_lts = true
          | .archived => False) ∧
        p.status ≠ .update ∧ ∃ q ∈ g.releases.installed, q.build = p.build)) := by
  have hrefuse : ∀ str : String, ¬ str = "" →
      Gui.try_to_install_reason g.settings g.releases.installed p = str →
      Gui.update g (.tryToInstall p) = some (g, [.msgBoxCantInstall p.name str]) := by
    intro str hs hr
    have hb : (str == "") = false := by
      rw [beq_eq_false_iff_ne]
      exact hs
    simp [Gui.update, hr, hb]
  have hproceed : Gui.try_to_install_reason g.settings g.releases.installed p = "" →
      Gui.update g (.tryToInstall p) = some (g, [.performCheckAvailability true p]) := by
    intro hr
    simp [Gui.update, hr]
  refine ⟨?_, ?_, ?_, ?_, ?_, hproceed, ?_⟩
  · rintro ⟨sub, hb⟩ h1 h2 h3
    refine hrefuse _ (by decide) ?_
    unfold Gui.try_to_install_reason
    rw [hb]
    exact if_pos ((gate_cond_iff _ _ _ _).mpr ⟨h1, h2, hb ▸ h3⟩)
  · rintro ⟨nm, hb⟩ h1 h2 h3
    refine hrefuse _ (by decide) ?_
    unfold Gui.try_to_install_reason
    rw [hb]
    exact if_pos ((gate_cond_iff _ _ _ _).mpr ⟨h1, h2, hb ▸ h3⟩)
  · intro hb h1 h2 h3
    refine hrefuse _ (by decide) ?_
    unfold Gui.try_to_install_reason
    rw [hb]
    exact if_pos ((gate_cond_iff _ _ _ _).mpr ⟨h1, h2, hb ▸ h3⟩)
  · intro hb h1 h2 h3
    refine hrefuse _ (by decide) ?_
    unfold Gui.try_to_install_reason
    rw [hb]
    exact if_pos ((gate_cond_iff _ _ _ _).mpr ⟨h1, h2, hb ▸ h3⟩)
  · intro hb
    apply hproceed
    unfold Gui.try_to_install_reason
    rw [hb]
  · cases hb : p.build with
    | daily sub =>
      unfold Gui.try_to_install_reason
      rw [hb]
      exact gate_string_iff _ _ _ _ _ (by decide)
    | branched nm =>
      unfold Gui.try_to_install_reason
      rw [hb]
      exact gate_string_iff _ _ _ _ _ (by decide)
    | stable =>
      unfold Gui.try_to_install_reason
      rw [hb]
      exact gate_string_iff _ _ _ _ _ (by decide)
    | lts =>
      unfold Gui.try_to_install_reason
      rw [hb]
      exact gate_string_iff _ _ _ _ _ (by decide)
    | archived =>
      unfold Gui.try_to_install_reason
      rw [hb]
      simp

/-- A concrete daily package awaiting install, used by the policy-gate
witness. -/
def pDaily : Package :=
  { name := "blender-3.0.0-daily"
    version := "3.0.0"
    date := 200
    build := .daily "x86_64"
    url := "https://example.org/blender-3.0.0-daily.tar.xz"
    status := .new
    state := .fetched }

/-- A concrete installed daily package of the same build line as `pDaily`. -/
def pDailyInstalled : Package :=
  { pDaily with
    name := "blender-2.99.0-daily"
    version := "2.99.0"
    date := 150
    state := .installed }

/-- A concrete state with keep-only-latest-daily enabled and an installed
daily package of `pDaily`'s build line. -/
def gEx2 : Gui :=
  { gEx with
    releases := { gEx.releases with installed := [pDailyInstalled] }
    settings := { sEx with keep_only_latest_daily := true } }

/-- Witness for claim C2 at the concrete state `gEx2`: installing the new
non-Update daily package is refused with the daily-specific reason. -/
theorem try_to_install_policy_gate_witness :
    Gui.update gEx2 (.tryToInstall pDaily) =
      some (gEx2, [.msgBoxCantInstall pDaily.name "daily package of its build type"]) :=
  (try_to_install_policy_gate gEx2 pDaily).1 ⟨"x86_64", rfl⟩ rfl (by decide) (by decide)

theorem erase_found_countP_zero (pr : α → Bool) (l : List α) (h : l.countP pr = 1) :
    ∃ i, position? pr l = some i ∧ (l.eraseIdx i).countP pr = 0 := by
  obtain ⟨i, hi⟩ := position?_isSome_of_countP_one pr l h
  have := countP_eraseIdx_of_position? pr l i hi
  exact ⟨i, hi, by omega⟩

/-- Claim C4: a 4xx probe response yields `available = false`, and processing
the resulting `CheckAvailability` message for a package present (exactly
once, per the catalog's dedup invariant) in its channel store removes it
from that store — the store no longer contains its identity — persists that
store, shows the no-longer-available notice exactly when the probe was made
for install, re-syncs the catalog, and leaves the other stores, the
installed registry, the installing list and the settings unaffected. -/
theorem availability_removal (g : Gui) (p : Package) (fi : Bool)
    (hcount : (g.releases.storeOf p.build).countP (fun q => q.peq p) = 1) :
    Gui.check_availability fi p (.response true) = some (false, fi, p) ∧
    ∃ g', Gui.update g (.checkAvailability false fi p) =
        some (g',
          [p.build.saveEffect] ++
            (if fi then [Effect.msgBoxNoLongerAvailable p.name] else []) ++ [Effect.sync]) ∧
      (∀ q ∈ g'.releases.storeOf p.build, ¬ q.peq p = true) ∧
      (∀ b : Build, b.channel ≠ p.build.channel →
        g'.releases.storeOf b = g.releases.storeOf b) ∧
      g'.releases.installed = g.releases.installed ∧
      g'.installing = g.installing ∧
      g'.settings = g.settings := by
  refine ⟨rfl, ?_⟩
  cases hb : p.build with
  | daily sub =>
    simp only [hb, Releases.storeOf] at hcount
    obtain ⟨i, hi, hz⟩ := erase_found_countP_zero (fun q => q.peq p) g.releases.daily hcount
    refine ⟨{ g with releases := { g.releases with daily := g.releases.daily.eraseIdx i } },
      ?_, ?_, ?_, rfl, rfl, rfl⟩
    · simp only [Gui.update, hb, hi, Build.saveEffect]
      simp
    · simp only [hb, Releases.storeOf]
      exact fun q hq => List.countP_eq_zero.mp hz q hq
    · intro b hbch
      cases b <;> simp_all [Releases.storeOf, Build.channel]
  | branched nm =>
    simp only [hb, Releases.storeOf] at hcount
    obtain ⟨i, hi, hz⟩ := erase_found_countP_zero (fun q => q.peq p) g.releases.branched hcount
    refine ⟨{ g with releases := { g.releases with branched := g.releases.branched.eraseIdx i } },
      ?_, ?_, ?_, rfl, rfl, rfl⟩
    · simp only [Gui.update, hb, hi, Build.saveEffect]
      simp
    · simp only [hb, Releases.storeOf]
      exact fun q hq => List.countP_eq_zero.mp hz q hq
    · intro b hbch
      cases b <;> simp_all [Releases.storeOf, Build.channel]
  | stable =>
    simp only [hb, Releases.storeOf] at hcount
    obtain ⟨i, hi, hz⟩ := erase_found_countP_zero (fun q => q.peq p) g.releases.stable hcount
    refine ⟨{ g with releases := { g.releases with stable := g.releases.stable.eraseIdx i } },
      ?_, ?_, ?_, rfl, rfl, rfl⟩
    · simp only [Gui.update, hb, hi, Build.saveEffect]
      simp
    · simp only [hb, Releases.storeOf]
      exact fun q hq => List.countP_eq_zero.mp hz q hq
    · intro b hbch
      cases b <;> simp_all [Releases.storeOf, Build.channel]
  | lts =>
    simp only [hb, Releases.storeOf] at hcount
    obtain ⟨i, hi, hz⟩ := erase_found_countP_zero (fun q => q.peq p) g.releases.lts hcount
    refine ⟨{ g with releases := { g.releases with lts := g.releases.lts.eraseIdx i } },
      ?_, ?_, ?_, rfl, rfl, rfl⟩
    · simp only [Gui.update, hb, hi, Build.saveEffect]
      simp
    · simp only [hb, Releases.storeOf]
      exact fun q hq => List.countP_eq_zero.mp hz q hq
    · intro b hbch
      cases b <;> simp_all [Releases.storeOf, Build.channel]
  | archived =>
    simp only [hb, Releases.storeOf] at hcount
    obtain ⟨i, hi, hz⟩ := erase_found_countP_zero (fun q => q.peq p) g.releases.archived hcount
    refine ⟨{ g with releases := { g.releases with archived := g.releases.archived.eraseIdx i } },
      ?_, ?_, ?_, rfl, rfl, rfl⟩
    · simp only [Gui.update, hb, hi, Build.saveEffect]
      simp
    · simp only [hb, Releases.storeOf]
      exact fun q hq => List.countP_eq_zero.mp hz q hq
    · intro b hbch
      cases b <;> simp_all [Releases.storeOf, Build.channel]

/-- Witness for claim C4 at the concrete state `gEx`, whose stable store
holds exactly one entry equal to `pEx`, with the probe made for install. -/
theorem availability_removal_witness :
    Gui.check_availability true pEx (.response true) = some (false, true, pEx) ∧
    ∃ g', Gui.update gEx (.checkAvailability false true pEx) =
        some (g',
          [pEx.build.saveEffect] ++
            (if true then [Effect.msgBoxNoLongerAvailable pEx.name] else []) ++ [Effect.sync]) ∧
      (∀ q ∈ g'.releases.storeOf pEx.build, ¬ q.peq pEx = true) ∧
      (∀ b : Build, b.channel ≠ pEx.build.channel →
        g'.releases.storeOf b = gEx.releases.storeOf b) ∧
      g'.releases.installed = gEx.releases.installed ∧
      g'.installing = gEx.installing ∧
      g'.settings = gEx.settings :=
  availability_removal gEx pEx true (by decide)

theorem removeOld_not_in_package_update (p : Package) (s : Settings) (pm : PackageMessage) :
    Effect.removeOldPackages ∉ (p.update s pm).2.2 := by
  cases pm <;> try simp [Package.update]
  case installationProgress pr => cases pr <;> simp [Package.update]

/-- Claim C5: pruning of superseded installed packages
(`remove_old_packages`) runs exactly when a `PackageInstalled` event is
processed — that handler re-scans the installed registry, revalidates the
default package, prunes, and re-syncs, in that order — and is invoked by no
other handler, in particular by none of the refresh handlers
(`CheckForUpdates`, `FetchAll`, `FetchDaily`, `FetchBranched`,
`FetchStable`, `FetchLts`, `FetchArchived`). -/
theorem pruning_only_after_install (g : Gui) (m : Message) (r : Gui × List Effect)
    (h : Gui.update g m = some r) :
    (Effect.removeOldPackages ∈ r.2 ↔ ∃ p, m = .packageInstalled p) ∧
    (∀ p, m = .packageInstalled p →
      r.2 = [.installedFetch, .installedUpdateDefault, .removeOldPackages, .sync]) := by
  cases m <;>
    simp only [Gui.update] at h <;>
    (repeat' split at h) <;>
    (try (injection h with h; subst h)) <;>
    simp_all [removeOld_not_in_package_update]

/-- The concrete result of processing `PackageInstalled pEx` in `gEx`, used
by the pruning witness. -/
def rC5 : Gui × List Effect := (Gui.update gEx (.packageInstalled pEx)).getD (gEx, [])

/-- Witness for claim C5 at the concrete state `gEx`: the `PackageInstalled`
handler's effect trace contains the pruning call. -/
theorem pruning_only_after_install_witness : Effect.removeOldPackages ∈ rC5.2 :=
  ((pruning_only_after_install gEx (.packageInstalled pEx) rC5 rfl).1).mpr ⟨pEx, rfl⟩

theorem update_preserves_filters_exclusive (g : Gui) (m : Message) (r : Gui × List Effect)
    (h : Gui.update g m = some r)
    (hg : (g.state.controls.filters.updates && g.state.controls.filters.installed) = false) :
    (r.1.state.controls.filters.updates && r.1.state.controls.filters.installed) = false := by
  cases m <;>
    simp only [Gui.update, Gui.setFilters, Filters.refresh_all] at h <;>
    (repeat' split at h) <;>
    (try (injection h with h; subst h)) <;>
    simp_all

theorem runMessages_preserves_filters_exclusive :
    ∀ (ms : List Message) (g g' : Gui),
      (g.state.controls.filters.updates && g.state.controls.filters.installed) = false →
      Gui.runMessages g ms = some g' →
      (g'.state.controls.filters.updates && g'.state.controls.filters.installed) = false
  | [], g, g', hg, h => by
    simp only [Gui.runMessages, Option.some.injEq] at h
    exact h ▸ hg
  | m :: ms, g, g', hg, h => by
    simp only [Gui.runMessages] at h
    cases hu : Gui.update g m with
    | none =>
      rw [hu] at h
      exact absurd h (by simp)
    | some r =>
      rw [hu] at h
      exact runMessages_preserves_filters_exclusive ms r.1 g'
        (update_preserves_filters_exclusive g m r hu hg) h

/-- Claim C10: the `updates` and `installed` view filters are mutually
exclusive: starting from the default filters (both off), after any sequence
of messages processed by `Gui::update` the two flags are never both on —
enabling either one disables the other, and no other handler touches
them. -/
theorem filters_updates_installed_exclusive (g g' : Gui) (ms : List Message)
    (hinit : g.state.controls.filters = Filters.default)
    (hrun : Gui.runMessages g ms = some g') :
    (g'.state.controls.filters.updates && g'.state.controls.filters.installed) = false :=
  runMessages_preserves_filters_exclusive ms g g' (by rw [hinit]; rfl) hrun

/-- The state reached from `gEx` after enabling the updates filter and then
the installed filter, used by the exclusivity witness. -/
def gF : Gui :=
  (Gui.runMessages gEx [.filterUpdatesChanged true, .filterInstalledChanged true]).getD gEx

/-- Witness for claim C10: running both filter toggles from `gEx` (whose
filters are the defaults) leaves the two flags not both on. -/
theorem filters_updates_installed_exclusive_witness :
    (gF.state.controls.filters.updates && gF.state.controls.filters.installed) = false :=
  filters_updates_installed_exclusive gEx gF
    [.filterUpdatesChanged true, .filterInstalledChanged true] rfl rfl
